import Mathlib

/-!
Verification of the `QgsMessageLogViewer` dialog (src/src/gui/qgsmessagelogviewer.h).

The repository excerpt contains only the class declaration: a `QDialog`
subclass with a constructor taking an optional `QStatusBar*` (defaulting to
`nullptr`) and window flags (defaulting to `QgisGui::ModalDialogFlags`), a
destructor, a public slot `logMessage(QString, QString, MessageLevel)` and a
private slot `closeTab(int)`.  The bodies of these members are not part of
the excerpt, so their behaviour is modelled from the specification: messages
are appended to the tab matching their tag (a fresh tab is created for an
unseen tag), the optional status-bar collaborator is updated as a side
effect, and tags key tabs uniquely.
-/

set_option autoImplicit false

namespace QgsLog

/-- Modelled from the spec: `QgsMessageLog::MessageLevel` (declared in
`qgsmessagelog.h`, which is not part of the excerpt) is "an enumerated
classification of a log message's importance". -/
inductive MessageLevel where
  | info
  | warning
  | critical
  deriving DecidableEq, Repr

/-- Modelled from the spec: the status bar collaborator, reduced to the one
observable the spec mentions, an indicator reflecting the last logged
message. -/
structure StatusBarState where
  indicator : Option (String × String × MessageLevel)
  deriving DecidableEq, Repr

/-- Modelled from the spec: updating the status-bar indicator with a newly
logged message is the side effect of `logMessage` on the collaborator. -/
def StatusBarState.update (_ : StatusBarState) (message tag : String)
    (level : MessageLevel) : StatusBarState :=
  { indicator := some (message, tag, level) }

/-- A display tab of the dialog: a tag keying it and the messages shown, in
the order they were appended. -/
structure Tab where
  tag : String
  messages : List String
  deriving DecidableEq, Repr

/-- Modelled from the spec: `Qt::WindowFlags`, reduced to the one observable
the spec mentions, whether the flags make the dialog modal. -/
structure WindowFlags where
  modal : Bool
  deriving DecidableEq, Repr

/-- Modelled from the spec: `QgisGui::ModalDialogFlags` (declared in
`qgisgui.h`, which is not part of the excerpt), the modal-dialog window
flags that are the default of the constructor's `fl` parameter. -/
def QgisGui.ModalDialogFlags : WindowFlags :=
  { modal := true }

/-- The dialog state of `QgsMessageLogViewer`: its tabs, the optional
status-bar collaborator fixed at construction, and its window flags. -/
structure QgsMessageLogViewer where
  tabs : List Tab
  statusBar : Option StatusBarState
  windowFlags : WindowFlags
  deriving DecidableEq, Repr

/-- The default of the constructor's `statusBar` parameter in the header is
`nullptr`, i.e. no collaborator. -/
def defaultStatusBar : Option StatusBarState := none

/-- The constructor `QgsMessageLogViewer(QStatusBar*, QWidget*, Qt::WindowFlags)`:
the dialog starts with no tabs, remembers the optional status bar and the
window flags. -/
def mkViewer (statusBar : Option StatusBarState) (fl : WindowFlags) :
    QgsMessageLogViewer :=
  { tabs := [], statusBar := statusBar, windowFlags := fl }

/-- Construction without explicitly passing window flags: the header's
default `fl = QgisGui::ModalDialogFlags` is used. -/
def mkViewerDefaultFlags (statusBar : Option StatusBarState) :
    QgsMessageLogViewer :=
  mkViewer statusBar QgisGui.ModalDialogFlags

/-- Construction with every defaulted parameter left at its default:
`statusBar = nullptr` and `fl = QgisGui::ModalDialogFlags`. -/
def mkViewerAllDefaults : QgsMessageLogViewer :=
  mkViewer defaultStatusBar QgisGui.ModalDialogFlags

/-- Modelled from the spec: appending a message to the tab matching `tag`
(the body of `logMessage` is not part of the excerpt).  The first tab whose
tag matches receives the message at the end of its contents; if no tab
matches, a fresh tab keyed by `tag` is created holding just the message. -/
def appendToTab : List Tab → String → String → List Tab
  | [], tag, message => [⟨tag, [message]⟩]
  | t :: ts, tag, message =>
    if t.tag = tag then ⟨t.tag, t.messages ++ [message]⟩ :: ts
    else t :: appendToTab ts tag message

/-- Modelled from the spec: the public slot
`logMessage(QString message, QString tag, MessageLevel level)` routes the
message to the tab keyed by `tag` and updates the status-bar indicator when
a status bar was supplied at construction. -/
def logMessage (st : QgsMessageLogViewer) (message tag : String)
    (level : MessageLevel) : QgsMessageLogViewer :=
  { st with
    tabs := appendToTab st.tabs tag message
    statusBar := st.statusBar.map (fun sb => sb.update message tag level) }

/-- Modelled from the spec: the private slot `closeTab(int index)` removes
the tab at `index`; an index outside the current tab range leaves the
dialog unchanged. -/
def closeTab (st : QgsMessageLogViewer) (index : Int) : QgsMessageLogViewer :=
  if 0 ≤ index ∧ index < (st.tabs.length : Int) then
    { st with tabs := st.tabs.eraseIdx index.toNat }
  else st

/-- The contents of the tab keyed by `tag`: `none` when no such tab exists,
otherwise its messages in display order. -/
def tabContents (st : QgsMessageLogViewer) (tag : String) :
    Option (List String) :=
  (st.tabs.find? (fun t => t.tag == tag)).map Tab.messages

/-- The tags of the dialog's tabs, in tab order. -/
def tagsOf (st : QgsMessageLogViewer) : List String :=
  st.tabs.map Tab.tag

/-- An invocation of one of the two slots declared in the header. -/
inductive Op where
  | log (message tag : String) (level : MessageLevel)
  | close (index : Int)
  deriving DecidableEq, Repr

/-- Dispatching a slot invocation on the dialog state. -/
def applyOp (st : QgsMessageLogViewer) : Op → QgsMessageLogViewer
  | .log m t l => logMessage st m t l
  | .close i => closeTab st i

/-- Running a sequence of slot invocations, oldest first. -/
def applyOps (st : QgsMessageLogViewer) (ops : List Op) : QgsMessageLogViewer :=
  ops.foldl applyOp st

/-- A call to the public slot `logMessage`. -/
structure LogCall where
  message : String
  tag : String
  level : MessageLevel
  deriving DecidableEq, Repr

/-- Running a sequence of `logMessage` calls, oldest first: the publicly
reachable evolutions of the dialog, since `closeTab` is a private slot. -/
def applyLogs (st : QgsMessageLogViewer) (cs : List LogCall) :
    QgsMessageLogViewer :=
  cs.foldl (fun s c => logMessage s c.message c.tag c.level) st

/-- The messages of a call sequence carrying a given tag, in call order. -/
def msgsFor (tag : String) (cs : List LogCall) : List String :=
  cs.filterMap (fun c => if c.tag = tag then some c.message else none)

/-- A member of the class declaration in the header. -/
inductive ClassMember where
  | construct
  | destruct
  | slotLogMessage
  | slotCloseTab
  deriving DecidableEq, Repr

/-- Finding the tab keyed by `tag` after an append: the tab exists and its
contents are the previous contents (empty when the tab is fresh) with the
message at the end. -/
theorem find?_appendToTab (ts : List Tab) (tag message : String) :
    (appendToTab ts tag message).find? (fun t => t.tag == tag) =
      some ⟨tag, (((ts.find? (fun t => t.tag == tag)).map Tab.messages).getD [])
        ++ [message]⟩ := by
  induction ts with
  | nil => simp [appendToTab, List.find?]
  | cons t ts ih =>
    by_cases h : t.tag = tag
    · simp [appendToTab, h, List.find?]
    · simp only [appendToTab, if_neg h]
      rw [List.find?_cons_of_neg, List.find?_cons_of_neg, ih]
      · simp [h]
      · simp [h]

/-- Finding a tab keyed by a different tag is unaffected by an append. -/
theorem find?_appendToTab_ne (ts : List Tab) (tag message other : String)
    (h : other ≠ tag) :
    (appendToTab ts tag message).find? (fun t => t.tag == other) =
      ts.find? (fun t => t.tag == other) := by
  have hne : (tag == other) = false := beq_eq_false_iff_ne.mpr (Ne.symm h)
  induction ts with
  | nil => simp [appendToTab, List.find?, hne]
  | cons t ts ih =>
    by_cases ht : t.tag = tag
    · have h1 : (t.tag == other) = false := by rw [ht]; exact hne
      simp only [appendToTab, if_pos ht]
      rw [List.find?_cons_of_neg, List.find?_cons_of_neg]
      · simp [h1]
      · simp [h1]
    · by_cases hto : t.tag = other
      · simp only [appendToTab, if_neg ht]
        rw [List.find?_cons_of_pos, List.find?_cons_of_pos]
        · simp [hto]
        · simp [hto]
      · simp only [appendToTab, if_neg ht]
        rw [List.find?_cons_of_neg, List.find?_cons_of_neg, ih]
        · simp [hto]
        · simp [hto]

/-- The tags after an append: unchanged when a tab keyed by `tag` already
exists, otherwise extended by `tag` at the end. -/
theorem map_tag_appendToTab (ts : List Tab) (tag message : String) :
    (appendToTab ts tag message).map Tab.tag =
      if tag ∈ ts.map Tab.tag then ts.map Tab.tag
      else ts.map Tab.tag ++ [tag] := by
  induction ts with
  | nil => simp [appendToTab]
  | cons t ts ih =>
    by_cases h : t.tag = tag
    · simp [appendToTab, h]
    · have hne : tag ≠ t.tag := fun hh => h hh.symm
      by_cases hm : tag ∈ ts.map Tab.tag
      · simp [appendToTab, h, ih, hm, hne]
      · simp [appendToTab, h, ih, hm, hne]

/-- After `logMessage`, the tab keyed by the message's tag exists and holds
its previous contents (empty for a fresh tab) with the message appended. -/
theorem tabContents_logMessage_self (st : QgsMessageLogViewer)
    (m t : String) (l : MessageLevel) :
    tabContents (logMessage st m t l) t =
      some (((tabContents st t).getD []) ++ [m]) := by
  simp [tabContents, logMessage, find?_appendToTab]

/-- After `logMessage`, every tab keyed by a different tag is unchanged. -/
theorem tabContents_logMessage_ne (st : QgsMessageLogViewer)
    (m t : String) (l : MessageLevel) (t' : String) (h : t' ≠ t) :
    tabContents (logMessage st m t l) t' = tabContents st t' := by
  simp [tabContents, logMessage, find?_appendToTab_ne st.tabs t m t' h]

/-- The status bar after `logMessage`: the collaborator supplied at
construction, updated with the logged message when present. -/
theorem statusBar_logMessage (st : QgsMessageLogViewer)
    (m t : String) (l : MessageLevel) :
    (logMessage st m t l).statusBar =
      st.statusBar.map (fun sb => sb.update m t l) := rfl

/-- The tags after `logMessage`: unchanged when the tag already keys a tab,
otherwise extended by the new tag at the end. -/
theorem tagsOf_logMessage (st : QgsMessageLogViewer)
    (m t : String) (l : MessageLevel) :
    tagsOf (logMessage st m t l) =
      if t ∈ tagsOf st then tagsOf st else tagsOf st ++ [t] := by
  simp [tagsOf, logMessage, map_tag_appendToTab]

/-- `logMessage` never removes a tab: the old tags are a sublist of the new
ones. -/
theorem tagsOf_sublist_logMessage (st : QgsMessageLogViewer)
    (m t : String) (l : MessageLevel) :
    List.Sublist (tagsOf st) (tagsOf (logMessage st m t l)) := by
  rw [tagsOf_logMessage]
  by_cases hm : t ∈ tagsOf st
  · rw [if_pos hm]
  · rw [if_neg hm]
    exact List.sublist_append_left _ _

/-- `logMessage` preserves uniqueness of tab-per-tag. -/
theorem nodup_tagsOf_logMessage (st : QgsMessageLogViewer)
    (m t : String) (l : MessageLevel) (h : (tagsOf st).Nodup) :
    (tagsOf (logMessage st m t l)).Nodup := by
  rw [tagsOf_logMessage]
  by_cases hm : t ∈ tagsOf st
  · rwa [if_pos hm]
  · rw [if_neg hm]
    simp only [List.nodup_append, List.nodup_cons, List.not_mem_nil,
      not_false_iff, List.nodup_nil, and_true, true_and]
    exact ⟨h, by simpa [List.disjoint_singleton] using hm⟩

/-- `closeTab` only ever removes a tab: the resulting tabs are a sublist of
the previous ones. -/
theorem tabs_closeTab_sublist (st : QgsMessageLogViewer) (i : Int) :
    List.Sublist (closeTab st i).tabs st.tabs := by
  unfold closeTab
  by_cases h : 0 ≤ i ∧ i < (st.tabs.length : Int)
  · rw [if_pos h]
    exact List.eraseIdx_sublist _ _
  · rw [if_neg h]

/-- `closeTab` preserves uniqueness of tab-per-tag. -/
theorem nodup_tagsOf_closeTab (st : QgsMessageLogViewer) (i : Int)
    (h : (tagsOf st).Nodup) : (tagsOf (closeTab st i)).Nodup :=
  h.sublist ((tabs_closeTab_sublist st i).map Tab.tag)

/-- Both slots preserve uniqueness of tab-per-tag. -/
theorem nodup_tagsOf_applyOp (st : QgsMessageLogViewer) (op : Op)
    (h : (tagsOf st).Nodup) : (tagsOf (applyOp st op)).Nodup := by
  cases op with
  | log m t l => exact nodup_tagsOf_logMessage st m t l h
  | close i => exact nodup_tagsOf_closeTab st i h

/-- Uniqueness of tab-per-tag is preserved along any slot sequence. -/
theorem nodup_tagsOf_applyOps (ops : List Op) :
    ∀ st : QgsMessageLogViewer, (tagsOf st).Nodup →
      (tagsOf (applyOps st ops)).Nodup := by
  induction ops with
  | nil => intro st h; exact h
  | cons op ops ih =>
    intro st h
    exact ih (applyOp st op) (nodup_tagsOf_applyOp st op h)

/-- Unfolding a log-call sequence by one step. -/
theorem applyLogs_cons (st : QgsMessageLogViewer) (c : LogCall)
    (cs : List LogCall) :
    applyLogs st (c :: cs) = applyLogs (logMessage st c.message c.tag c.level) cs := rfl

/-- Running a log-call sequence over a state where the tab already exists:
the tab accumulates exactly the sequence's messages carrying its tag. -/
theorem tabContents_applyLogs_some (cs : List LogCall) :
    ∀ (st : QgsMessageLogViewer) (t : String) (ms : List String),
      tabContents st t = some ms →
      tabContents (applyLogs st cs) t = some (ms ++ msgsFor t cs) := by
  induction cs with
  | nil =>
    intro st t ms h
    simpa [applyLogs, msgsFor] using h
  | cons c cs ih =>
    intro st t ms h
    by_cases hc : c.tag = t
    · subst hc
      have h1 := tabContents_logMessage_self st c.message c.tag c.level
      rw [h] at h1
      rw [applyLogs_cons, ih _ _ _ h1]
      simp [msgsFor]
    · have h1 : tabContents (logMessage st c.message c.tag c.level) t = some ms := by
        rw [tabContents_logMessage_ne st c.message c.tag c.level t
          (fun hh => hc hh.symm)]
        exact h
      rw [applyLogs_cons, ih _ _ _ h1]
      simp [msgsFor, hc]

/-- Running a log-call sequence over a state without the tab: as soon as
some call carries the tag, the tab exists afterwards and holds exactly the
sequence's messages carrying the tag. -/
theorem tabContents_applyLogs_none (cs : List LogCall) :
    ∀ (st : QgsMessageLogViewer) (t : String),
      tabContents st t = none → (∃ c ∈ cs, c.tag = t) →
      tabContents (applyLogs st cs) t = some (msgsFor t cs) := by
  induction cs with
  | nil =>
    intro st t _ hex
    exact absurd hex (by simp)
  | cons c cs ih =>
    intro st t h hex
    by_cases hc : c.tag = t
    · subst hc
      have h1 : tabContents (logMessage st c.message c.tag c.level) c.tag
          = some [c.message] := by
        rw [tabContents_logMessage_self, h]
        rfl
      rw [applyLogs_cons, tabContents_applyLogs_some cs _ _ _ h1]
      simp [msgsFor]
    · have h1 : tabContents (logMessage st c.message c.tag c.level) t = none := by
        rw [tabContents_logMessage_ne st c.message c.tag c.level t
          (fun hh => hc hh.symm)]
        exact h
      have hex' : ∃ c' ∈ cs, c'.tag = t := by
        rcases hex with ⟨c', hmem, htag⟩
        rcases List.mem_cons.mp hmem with rfl | hmem'
        · exact absurd htag hc
        · exact ⟨c', hmem', htag⟩
      rw [applyLogs_cons, ih _ _ h1 hex']
      simp [msgsFor, hc]

/-- A freshly constructed dialog has no tabs at all. -/
theorem tabContents_mkViewer (sb : Option StatusBarState) (fl : WindowFlags)
    (t : String) : tabContents (mkViewer sb fl) t = none := rfl

/-- Claim C1: over any sequence of `logMessage` calls after construction,
each message is appended to the tab matching its tag: for every tag carried
by some call, a tab for that tag exists afterwards and holds exactly the
sequence's messages with that tag, in call order. -/
theorem claimC1_logMessage_routes_by_tag (sb : Option StatusBarState)
    (fl : WindowFlags) (cs : List LogCall) (t : String)
    (h : ∃ c ∈ cs, c.tag = t) :
    tabContents (applyLogs (mkViewer sb fl) cs) t = some (msgsFor t cs) :=
  tabContents_applyLogs_none cs (mkViewer sb fl) t (tabContents_mkViewer sb fl t) h

/-- Witness for C1 at a concrete three-call sequence with two tags. -/
theorem claimC1_witness :
    tabContents (applyLogs (mkViewer none QgisGui.ModalDialogFlags)
        [⟨"m1", "A", MessageLevel.info⟩, ⟨"m2", "B", MessageLevel.warning⟩,
          ⟨"m3", "A", MessageLevel.critical⟩]) "A" = some ["m1", "m3"] := by
  have h := claimC1_logMessage_routes_by_tag none QgisGui.ModalDialogFlags
      [⟨"m1", "A", MessageLevel.info⟩, ⟨"m2", "B", MessageLevel.warning⟩,
        ⟨"m3", "A", MessageLevel.critical⟩] "A"
      ⟨⟨"m1", "A", MessageLevel.info⟩, by simp, rfl⟩
  exact h.trans (by decide)

/-- Claim C2: along every slot sequence after construction (`logMessage`
and `closeTab` interleaved arbitrarily), each tag keys at most one tab. -/
theorem claimC2_tag_uniqueness (sb : Option StatusBarState) (fl : WindowFlags)
    (ops : List Op) :
    (tagsOf (applyOps (mkViewer sb fl) ops)).Nodup :=
  nodup_tagsOf_applyOps ops (mkViewer sb fl) List.nodup_nil

/-- Claim C3: neither slot can fail: for every message, tag (the empty
string included), level and integer index, `logMessage` and `closeTab`
produce a successor state, and no error outcome exists in the interface;
in particular logging under the empty tag still yields a tab keyed by it. -/
theorem claimC3_total_no_failure (st : QgsMessageLogViewer) (m t : String)
    (l : MessageLevel) (i : Int) :
    (∃ st₁, logMessage st m t l = st₁) ∧ (∃ st₂, closeTab st i = st₂) ∧
      tabContents (logMessage st m "" l) "" ≠ none := by
  refine ⟨⟨_, rfl⟩, ⟨_, rfl⟩, ?_⟩
  rw [tabContents_logMessage_self]
  simp

/-- Claim C4: the status-bar collaborator is optional at construction: the
dialog can be built with or without one, the header's default for the
parameter is the absent collaborator, and construction records the choice. -/
theorem claimC4_optional_statusbar (sb : StatusBarState) (fl : WindowFlags) :
    (mkViewer (some sb) fl).statusBar = some sb ∧
      (mkViewer none fl).statusBar = none ∧
      defaultStatusBar = none ∧
      mkViewerAllDefaults.statusBar = none :=
  ⟨rfl, rfl, rfl, rfl⟩

/-- Claim C5: when a status bar was supplied at construction, every
`logMessage` call updates its indicator with the logged message, in
addition to routing the message to the tab keyed by the tag. -/
theorem claimC5_statusbar_updated (st : QgsMessageLogViewer) (m t : String)
    (l : MessageLevel) (sb : StatusBarState) (h : st.statusBar = some sb) :
    (logMessage st m t l).statusBar = some (sb.update m t l) ∧
      (logMessage st m t l).statusBar = some ⟨some (m, t, l)⟩ ∧
      tabContents (logMessage st m t l) t =
        some (((tabContents st t).getD []) ++ [m]) := by
  refine ⟨?_, ?_, tabContents_logMessage_self st m t l⟩
  · rw [statusBar_logMessage, h, Option.map_some']
  · rw [statusBar_logMessage, h, Option.map_some']
    rfl

/-- Witness for C5 at a concrete dialog holding a status bar. -/
theorem claimC5_witness :
    (logMessage ⟨[], some ⟨none⟩, QgisGui.ModalDialogFlags⟩ "m" "A"
        MessageLevel.info).statusBar =
      some ⟨some ("m", "A", MessageLevel.info)⟩ :=
  ((claimC5_statusbar_updated ⟨[], some ⟨none⟩, QgisGui.ModalDialogFlags⟩
      "m" "A" MessageLevel.info ⟨none⟩ rfl).2).1

/-- Claim C6: `logMessage` modifies only the tab keyed by its tag, whose
previous contents are preserved with the new message appended; every tab
keyed by a different tag is left unchanged. -/
theorem claimC6_frame (st : QgsMessageLogViewer) (m t : String)
    (l : MessageLevel) :
    tabContents (logMessage st m t l) t =
        some (((tabContents st t).getD []) ++ [m]) ∧
      ∀ t', t' ≠ t → tabContents (logMessage st m t l) t' = tabContents st t' :=
  ⟨tabContents_logMessage_self st m t l,
    fun t' h => tabContents_logMessage_ne st m t l t' h⟩

/-- Witness for C6: logging under tag A leaves tab B untouched. -/
theorem claimC6_witness :
    tabContents (logMessage ⟨[⟨"A", ["x"]⟩, ⟨"B", ["y"]⟩], none,
        QgisGui.ModalDialogFlags⟩ "m" "A" MessageLevel.info) "B" =
      tabContents ⟨[⟨"A", ["x"]⟩, ⟨"B", ["y"]⟩], none,
        QgisGui.ModalDialogFlags⟩ "B" :=
  (claimC6_frame ⟨[⟨"A", ["x"]⟩, ⟨"B", ["y"]⟩], none,
      QgisGui.ModalDialogFlags⟩ "m" "A" MessageLevel.info).2 "B" (by decide)

/-- Claim C7: the class declaration exposes exactly the two slots (receive
a log message; close a tab by index), a constructor and a destructor, and
nothing else: every slot invocation is one of the two, every class member
is one of the four, and the two slots are distinct. -/
theorem claimC7_interface_surface :
    (∀ op : Op, (∃ m t l, op = Op.log m t l) ∨ (∃ i, op = Op.close i)) ∧
      (∀ mem : ClassMember, mem = ClassMember.construct ∨
        mem = ClassMember.destruct ∨ mem = ClassMember.slotLogMessage ∨
        mem = ClassMember.slotCloseTab) ∧
      ClassMember.slotLogMessage ≠ ClassMember.slotCloseTab := by
  refine ⟨fun op => ?_, fun mem => ?_, by decide⟩
  · cases op with
    | log m t l => exact Or.inl ⟨m, t, l, rfl⟩
    | close i => exact Or.inr ⟨i, rfl⟩
  · cases mem
    · exact Or.inl rfl
    · exact Or.inr (Or.inl rfl)
    · exact Or.inr (Or.inr (Or.inl rfl))
    · exact Or.inr (Or.inr (Or.inr rfl))

/-- Claim C8: a dialog constructed without explicitly passing window flags
gets `QgisGui::ModalDialogFlags`, so the default-constructed dialog is
modal. -/
theorem claimC8_modal_default_flags (sb : Option StatusBarState) :
    (mkViewerDefaultFlags sb).windowFlags = QgisGui.ModalDialogFlags ∧
      (mkViewerDefaultFlags sb).windowFlags.modal = true ∧
      mkViewerAllDefaults.windowFlags = QgisGui.ModalDialogFlags :=
  ⟨rfl, rfl, rfl⟩

/-- Claim C9: `closeTab` being a private slot, the publicly invokable
operations are construction and `logMessage` calls, and along any such
sequence the tab set never shrinks: the earlier tags form a sublist of the
later ones. -/
theorem claimC9_tabs_monotone (cs : List LogCall) :
    ∀ st : QgsMessageLogViewer,
      List.Sublist (tagsOf st) (tagsOf (applyLogs st cs)) := by
  induction cs with
  | nil => intro st; exact List.Sublist.refl _
  | cons c cs ih =>
    intro st
    exact List.Sublist.trans
      (tagsOf_sublist_logMessage st c.message c.tag c.level)
      (ih (logMessage st c.message c.tag c.level))

/-- Claim C10: a dialog constructed without a status bar handles every
`logMessage` call: the absent collaborator stays absent (nothing is
dereferenced) and the message is still routed to the tab matching its tag. -/
theorem claimC10_no_statusbar_safe (st : QgsMessageLogViewer) (m t : String)
    (l : MessageLevel) (h : st.statusBar = none) :
    (logMessage st m t l).statusBar = none ∧
      tabContents (logMessage st m t l) t =
        some (((tabContents st t).getD []) ++ [m]) := by
  refine ⟨?_, tabContents_logMessage_self st m t l⟩
  rw [statusBar_logMessage, h, Option.map_none']

/-- Witness for C10 at the default-constructed dialog. -/
theorem claimC10_witness :
    (logMessage (mkViewer none QgisGui.ModalDialogFlags) "m" "A"
        MessageLevel.info).statusBar = none :=
  (claimC10_no_statusbar_safe (mkViewer none QgisGui.ModalDialogFlags)
      "m" "A" MessageLevel.info rfl).1

end QgsLog
